import Mathlib

/-!
Verification of the heuristic scoring core of an AI resume-analyzer
(`advanced_analysis.py`): ATS scoring, skill extraction, job matching,
salary estimation and interview-tip generation.

The Python functions are shallowly embedded as executable Lean
definitions.  Python `str` becomes `String`, scanned as `List Char`;
Python integer arithmetic becomes `Nat` arithmetic (all quantities here
are non-negative).  The one floating-point computation of the program,
`int((matches / len(resume_skills)) * 100)`, is embedded exactly: both
binary64 roundings (the true division and the multiplication by 100)
are modelled by an explicit round-to-nearest, ties-to-even rounding of
exact rationals onto the IEEE-754 double grid (including the subnormal
range), carried out in integer arithmetic, followed by truncation; see
`roundB64` and `pyBase`.  Regular expression searches are embedded as
explicit character scanners with the same match semantics (ASCII case
folding, as all keywords involved are ASCII).  Python `list(set(xs))`
is embedded as `List.dedup` (first-occurrence order); every property
proved below depends only on membership and cardinality, never on the
order of those lists.
-/

/-! ## String utilities -/

/-- Case folding of a character, as Python `str.lower` acts on the ASCII
range (all vocabulary keywords in the program are ASCII). -/
def lowerChar (c : Char) : Char := c.toLower

/-- Lowercase a string, embedding Python `str.lower()` (defined over
the character list so that it evaluates by kernel reduction). -/
def toLowerStr (s : String) : String := String.mk (s.data.map lowerChar)

/-- `isPrefixL n h` holds when the character list `n` is an initial
segment of `h`. -/
def isPrefixL : List Char → List Char → Bool
  | [], _ => true
  | _ :: _, [] => false
  | a :: as, b :: bs => a == b && isPrefixL as bs

/-- Substring containment, embedding the Python expression
`needle in hay`. -/
def containsSub (needle hay : String) : Bool :=
  hay.data.tails.any (fun t => isPrefixL needle.data t)

/-- Accumulator pass behind `splitWords`; embeds Python `str.split()`
(split on runs of whitespace, dropping empty pieces). -/
def splitWordsAux : List Char → List Char → List String
  | [], acc => if acc.isEmpty then [] else [String.mk acc.reverse]
  | c :: cs, acc =>
    if c.isWhitespace then
      if acc.isEmpty then splitWordsAux cs []
      else String.mk acc.reverse :: splitWordsAux cs []
    else splitWordsAux cs (c :: acc)

/-- Python `str.split()` with no separator argument. -/
def splitWords (s : String) : List String := splitWordsAux s.data []

/-! ## Exact model of the binary64 arithmetic in the job match scorer

Python evaluates `int((matches / len(resume_skills)) * 100)` in IEEE-754
double precision: the integer true division is correctly rounded to a
double, the product with the exact double `100.0` is correctly rounded
again, and `int` truncates toward zero.  Both roundings are
round-to-nearest with ties to even.  The model below performs this
bit-exactly in integer arithmetic: a non-negative double is represented
as a pair `(mant, s)` with value `mant * 2 ^ s`. -/

/-- Fuelled floor of the base-2 logarithm (`flog2Aux n n` computes
`⌊log₂ n⌋` for `n ≥ 1`; the fuel only bounds the halving recursion). -/
def flog2Aux : Nat → Nat → Nat
  | 0, _ => 0
  | fuel + 1, n => if 2 ≤ n then flog2Aux fuel (n / 2) + 1 else 0

/-- `⌊log₂ n⌋` for `n ≥ 1` (0 at 0). -/
def flog2 (n : Nat) : Nat := flog2Aux n n

/-- `⌊log₂ (a / b)⌋` for `a, b ≥ 1`, via the shift `T` large enough that
`a * 2 ^ T / b ≥ 1` (for `x ≥ 1`, `⌊log₂ x⌋ = ⌊log₂ ⌊x⌋⌋`). -/
def qlog2 (a b : Nat) : Int :=
  (flog2 (a * 2 ^ (flog2 b + 2) / b) : Int) - (flog2 b + 2)

/-- Round the non-negative rational `a / b` to the nearest integer,
ties to even. -/
def rnEven (a b : Nat) : Nat :=
  let q := a / b
  let r := a % b
  if 2 * r < b then q
  else if b < 2 * r then q + 1
  else if q % 2 = 0 then q else q + 1

/-- Round the non-negative rational `a / b` (with `b > 0`) to the
IEEE-754 binary64 grid, round-to-nearest ties-to-even, returned as
`(mant, s)` with value `mant * 2 ^ s`.  The unit in the last place is
`2 ^ (e - 52)` where `e` is the floor base-2 logarithm of the value,
clamped below at `-1022` (the subnormal range has fixed spacing
`2 ^ -1074`).  Overflow to infinity is not modelled: in this program the
rounded values never exceed 100. -/
def roundB64 (a b : Nat) : Nat × Int :=
  let e : Int := max (qlog2 a b) (-1022)
  let s : Int := e - 52
  if s ≤ 0 then (rnEven (a * 2 ^ (-s).toNat) b, s)
  else (rnEven a (b * 2 ^ s.toNat), s)

/-- The value Python computes for `int((m / n) * 100)` (with `n > 0`):
round `m / n` to a double, multiply exactly by 100 and round again,
then truncate toward zero. -/
def pyBase (m n : Nat) : Nat :=
  let r1 := roundB64 m n
  let p : Nat × Nat :=
    if r1.2 ≤ 0 then (100 * r1.1, 2 ^ (-r1.2).toNat)
    else (100 * r1.1 * 2 ^ r1.2.toNat, 1)
  let r2 := roundB64 p.1 p.2
  if 0 ≤ r2.2 then r2.1 * 2 ^ r2.2.toNat else r2.1 / 2 ^ (-r2.2).toNat

/-! ## Job match scorer (`calculate_job_match_score`, lines 151-178) -/

/-- Embedding of `calculate_job_match_score(resume_skills, job_title,
job_description="")`.  The Python default argument is passed explicitly
by callers here. -/
def calculate_job_match_score (resume_skills : List String)
    (job_title : String) (job_description : String) : Nat :=
  let job_text := toLowerStr (job_title ++ " " ++ job_description)
  let resume_skills_lower := resume_skills.map toLowerStr
  let nMatches := (resume_skills_lower.filter (fun s => containsSub s job_text)).length
  let score :=
    if resume_skills.length > 0 then
      min 100 (pyBase nMatches resume_skills.length)
    else 0
  let title_words := splitWords (toLowerStr job_title)
  let joined := String.intercalate " " resume_skills_lower
  let title_matches := (title_words.filter (fun w => containsSub w joined)).length
  min 100 (score + title_matches * 5)

/-- Rounding to the nearest integer of the fraction `a / b`, used by the
specification side of the job-match formula ("round"). -/
def roundDiv (a b : Nat) : Nat := (2 * a + b) / (2 * b)

/-- The job-match score exactly as the specification words it: base
score `round(100 × matches / |resumeSkills|)` (0 for an empty skill
list), plus 5 per matching title word, clamped at 100.  The spec leaves
the separator of the title/description concatenation unstated; the
single space the code inserts is used, so that the comparison with the
code isolates the rounding discrepancy. -/
def specJobMatchScore (resume_skills : List String)
    (job_title : String) (job_description : String) : Nat :=
  let job_text := toLowerStr (job_title ++ " " ++ job_description)
  let resume_skills_lower := resume_skills.map toLowerStr
  let nMatches := (resume_skills_lower.filter (fun s => containsSub s job_text)).length
  let title_words := splitWords (toLowerStr job_title)
  let joined := String.intercalate " " resume_skills_lower
  let title_matches := (title_words.filter (fun w => containsSub w joined)).length
  if resume_skills.length = 0 then 0
  else min 100 (roundDiv (100 * nMatches) resume_skills.length + 5 * title_matches)

/-- The job-match score with the base computed as the program computes
it — `int((matches / |skills|) * 100)` through binary64 arithmetic
(`pyBase`) — instead of exact rounding: the formula the code actually
implements, written in the single-clamp shape of the specification. -/
def specJobMatchScorePy (resume_skills : List String)
    (job_title : String) (job_description : String) : Nat :=
  let job_text := toLowerStr (job_title ++ " " ++ job_description)
  let resume_skills_lower := resume_skills.map toLowerStr
  let nMatches := (resume_skills_lower.filter (fun s => containsSub s job_text)).length
  let title_words := splitWords (toLowerStr job_title)
  let joined := String.intercalate " " resume_skills_lower
  let title_matches := (title_words.filter (fun w => containsSub w joined)).length
  if resume_skills.length = 0 then 0
  else min 100 (pyBase nMatches resume_skills.length + 5 * title_matches)

/-! ## ATS scorer (`calculate_ats_score`, lines 9-103)

The regular expressions of the Python code are embedded as explicit
character scanners over `List Char`.  `re.search` (a boolean) becomes
an existence check over all start positions; `re.findall` counts become
a left-to-right non-overlapping scan, matching each pattern with the
leftmost-then-greedy semantics of the `re` module. -/

/-- Python regex word character `\w` (ASCII idealisation). -/
def isWordChar (c : Char) : Bool := c.isAlpha || c.isDigit || c == '_'

/-- Character of `cs` at index `j`, with a space (a non-word,
non-matching character) standing in for out-of-range positions. -/
def charAt (cs : List Char) (j : Nat) : Char := cs.getD j ' '

/-- Word-character test at a position, out-of-range positions counting
as non-word. -/
def wAt (cs : List Char) (j : Nat) : Bool := isWordChar (charAt cs j)

/-- The regex word boundary `\b` at position `i` (between `cs[i-1]` and
`cs[i]`): holds when exactly one side is a word character. -/
def boundaryAt (cs : List Char) (i : Nat) : Bool :=
  (decide (i ≠ 0) && wAt cs (i - 1)) != wAt cs i

/-- Length of the run of characters satisfying `p` starting at `i`. -/
def runLen (p : Char → Bool) (cs : List Char) (i : Nat) : Nat :=
  ((cs.drop i).takeWhile p).length

/-- `allRange p i k` holds when positions `i, …, i+k-1` all satisfy `p`. -/
def allRange (p : Char → Bool) (cs : List Char) (i k : Nat) : Bool :=
  (List.range k).all (fun j => p (charAt cs (i + j)))

/-- Character class of the local part of the email pattern
`[A-Za-z0-9._%+-]`. -/
def isLocalChar (c : Char) : Bool :=
  c.isAlpha || c.isDigit || c == '.' || c == '_' || c == '%' || c == '+' || c == '-'

/-- Character class of the domain part of the email pattern
`[A-Za-z0-9.-]`. -/
def isDomainChar (c : Char) : Bool :=
  c.isAlpha || c.isDigit || c == '.' || c == '-'

/-- Character class of the final part of the email pattern, written
`[A-Z|a-z]` in the source (the class literally contains the bar). -/
def isTldChar (c : Char) : Bool := c.isAlpha || c == '|'

/-- A match of the email pattern
`\b[A-Za-z0-9._%+-]+@[A-Za-z0-9.-]+\.[A-Z|a-z]{2,}\b` starting at
position `i`.  The local part is forced to be the maximal run of local
characters (backtracking cannot stop it earlier, as the next character
would still be a local character rather than `@`); the split of the
part after `@` into domain, dot and final segment is an existential
search, which is exactly what the backtracking engine decides. -/
def emailAt (cs : List Char) (i : Nat) : Bool :=
  boundaryAt cs i &&
  (let l := runLen isLocalChar cs i
   decide (0 < l) && (charAt cs (i + l) == '@') &&
   (let dstart := i + l + 1
    let dmax := runLen isDomainChar cs dstart
    (List.range dmax).any (fun dm =>
      let d := dm + 1
      (charAt cs (dstart + d) == '.') &&
      (let tstart := dstart + d + 1
       let tmax := runLen isTldChar cs tstart
       (List.range (tmax + 1)).any (fun t =>
         decide (2 ≤ t) && boundaryAt cs (tstart + t))))))

/-- `re.search` of the email pattern: a match exists at some position. -/
def hasEmail (cs : List Char) : Bool :=
  (List.range (cs.length + 1)).any (emailAt cs)

/-- The separator class `[-.\s]` of the phone pattern. -/
def isSepChar (c : Char) : Bool := c == '-' || c == '.' || c.isWhitespace

/-- Consume exactly `k` digits, returning the rest of the input. -/
def eatDigits : Nat → List Char → Option (List Char)
  | 0, cs => some cs
  | _ + 1, [] => none
  | k + 1, c :: cs => if c.isDigit then eatDigits k cs else none

/-- The two ways of handling an optional single character (`x?` in the
regex): leave the input alone, or consume the head when it matches. -/
def optConsume (p : Char → Bool) : List Char → List (List Char)
  | [] => [[]]
  | c :: cs => if p c then [c :: cs, cs] else [c :: cs]

/-- The mandatory tail of the phone pattern,
`\(?\d{3}\)?[-.\s]?\d{3}[-.\s]?\d{4}`, matched at the head of `cs`. -/
def phoneCore (cs : List Char) : Bool :=
  (optConsume (· == '(') cs).any (fun c1 =>
    match eatDigits 3 c1 with
    | none => false
    | some c2 =>
      (optConsume (· == ')') c2).any (fun c3 =>
        (optConsume isSepChar c3).any (fun c4 =>
          match eatDigits 3 c4 with
          | none => false
          | some c5 =>
            (optConsume isSepChar c5).any (fun c6 =>
              (eatDigits 4 c6).isSome))))

/-- The phone pattern with its optional country-code group
`(\+?\d{1,3}[-.\s]?)?` present, matched at the head of `cs`. -/
def phonePrefixed (cs : List Char) : Bool :=
  (optConsume (· == '+') cs).any (fun c1 =>
    [1, 2, 3].any (fun k =>
      match eatDigits k c1 with
      | none => false
      | some c2 => (optConsume isSepChar c2).any phoneCore))

/-- `re.search` of the phone pattern
`(\+?\d{1,3}[-.\s]?)?\(?\d{3}\)?[-.\s]?\d{3}[-.\s]?\d{4}` (no word
boundaries): a match starts at some suffix. -/
def hasPhone (cs : List Char) : Bool :=
  cs.tails.any (fun t => phoneCore t || phonePrefixed t)

/-- The four section-header patterns, each an alternation of literal
words, searched with `re.IGNORECASE`. -/
def common_sections : List (List String) :=
  [["experience", "work history"],
   ["education", "qualification"],
   ["skills", "technical skills"],
   ["projects", "portfolio"]]

/-- Left-to-right non-overlapping scan counting `re.findall` matches:
`m cs i` returns the length of the (leftmost-greedy) match at `i`, if
any; after a match the scan resumes at its end. -/
def countMatchesFrom (m : List Char → Nat → Option Nat) (cs : List Char) :
    Nat → Nat → Nat
  | 0, _ => 0
  | fuel + 1, i =>
    if cs.length ≤ i then 0
    else
      match m cs i with
      | some len => 1 + countMatchesFrom m cs fuel (i + max len 1)
      | none => countMatchesFrom m cs fuel (i + 1)

/-- Number of non-overlapping matches of `m` in `cs`. -/
def countMatches (m : List Char → Nat → Option Nat) (cs : List Char) : Nat :=
  countMatchesFrom m cs (cs.length + 1) 0

/-- `(19|20)\d{2}` at position `i` (digits are unaffected by
`re.IGNORECASE`). -/
def yearDigits (cs : List Char) (i : Nat) : Bool :=
  ((charAt cs i == '1' && charAt cs (i + 1) == '9') ||
   (charAt cs i == '2' && charAt cs (i + 1) == '0')) &&
  (charAt cs (i + 2)).isDigit && (charAt cs (i + 3)).isDigit

/-- Match of the bare-year pattern `\b(19|20)\d{2}\b` at `i`. -/
def yearAt (cs : List Char) (i : Nat) : Option Nat :=
  if boundaryAt cs i && yearDigits cs i && boundaryAt cs (i + 4) then some 4
  else none

/-- Lowercased character at a position (for `re.IGNORECASE` literals). -/
def lchar (cs : List Char) (j : Nat) : Char := lowerChar (charAt cs j)

/-- The month abbreviations of the month-year pattern. -/
def monthAbbrevs : List (List Char) :=
  [['j','a','n'], ['f','e','b'], ['m','a','r'], ['a','p','r'],
   ['m','a','y'], ['j','u','n'], ['j','u','l'], ['a','u','g'],
   ['s','e','p'], ['o','c','t'], ['n','o','v'], ['d','e','c']]

/-- Case-insensitive literal match of `w` at position `i`. -/
def litAtCI (cs : List Char) (i : Nat) (w : List Char) : Bool :=
  (List.range w.length).all (fun j => lchar cs (i + j) == w.getD j ' ')

/-- Match of the month-year pattern
`\b(Jan|Feb|…|Dec)[a-z]*\s+(19|20)\d{2}\b` (searched with
`re.IGNORECASE`, so `[a-z]*` matches any letter) at position `i`.  The
letter run after the abbreviation is maximal: if the match fails there,
giving letters back cannot produce the required whitespace. -/
def monthYearAt (cs : List Char) (i : Nat) : Option Nat :=
  if boundaryAt cs i && monthAbbrevs.any (litAtCI cs i) then
    let j := i + 3 + runLen Char.isAlpha cs (i + 3)
    let w := runLen Char.isWhitespace cs j
    if 0 < w && yearDigits cs (j + w) && boundaryAt cs (j + w + 4) then
      some (j + w + 4 - i)
    else none
  else none

/-- Match of the date pattern `\b\d{1,2}/\d{1,2}/(19|20)\d{2}\b` at
position `i`; the `\d{1,2}` pieces are tried greedily (two digits
first), as the backtracking engine does. -/
def mmddyyyyAt (cs : List Char) (i : Nat) : Option Nat :=
  if boundaryAt cs i then
    [2, 1].findSome? (fun k1 =>
      if allRange Char.isDigit cs i k1 && charAt cs (i + k1) == '/' then
        [2, 1].findSome? (fun k2 =>
          let p := i + k1 + 1
          if allRange Char.isDigit cs p k2 && charAt cs (p + k2) == '/' then
            let q := p + k2 + 1
            if yearDigits cs q && boundaryAt cs (q + 4) then some (q + 4 - i)
            else none
          else none)
      else none)
  else none

/-- The fixed action-verb vocabulary of the ATS scorer. -/
def action_verbs : List String :=
  ["developed", "created", "managed", "led", "designed", "implemented",
   "built", "achieved", "improved", "increased", "reduced", "optimized",
   "coordinated", "analyzed", "established", "maintained"]

/-- The currency characters of the achievements pattern: the source
file literally contains the characters `$`, `â`, `‚`, `¬`, `Â`, `£`
inside the class (a mangled encoding of the euro and pound signs,
reproduced faithfully). -/
def currencyChars : List Char :=
  ['$', 'â', '‚', '¬', 'Â', '£']

/-- Match of the achievements pattern `\d+%|\d+\+|[…]\d+|\d+[kK]\+?` at
position `i`, trying the alternatives in the source order with greedy
digit runs. -/
def achievementAt (cs : List Char) (i : Nat) : Option Nat :=
  let r := runLen Char.isDigit cs i
  if 0 < r && charAt cs (i + r) == '%' then some (r + 1)
  else if 0 < r && charAt cs (i + r) == '+' then some (r + 1)
  else if currencyChars.contains (charAt cs i) && 0 < runLen Char.isDigit cs (i + 1) then
    some (1 + runLen Char.isDigit cs (i + 1))
  else if 0 < r && (charAt cs (i + r) == 'k' || charAt cs (i + r) == 'K') then
    some (r + 1 + (if charAt cs (i + r + 1) == '+' then 1 else 0))
  else none

/-- Per-category breakdown of the ATS score (the keys of the Python
`breakdown` dictionary, in insertion order). -/
structure AtsBreakdown where
  contact_info : Nat
  section_headers : Nat
  dates : Nat
  action_verbs : Nat
  quantifiable_achievements : Nat
  optimal_length : Nat
deriving Repr, DecidableEq

/-- The dictionary returned by `calculate_ats_score`. -/
structure AtsResult where
  total_score : Nat
  max_score : Nat
  breakdown : AtsBreakdown
  grade : String
deriving Repr, DecidableEq

/-- Embedding of `get_grade` (lines 181-194). -/
def get_grade (score : Nat) : String :=
  if score ≥ 90 then "A+"
  else if score ≥ 80 then "A"
  else if score ≥ 70 then "B+"
  else if score ≥ 60 then "B"
  else if score ≥ 50 then "C"
  else "D"

/-- Embedding of `calculate_ats_score` (lines 9-103). -/
def calculate_ats_score (resume_text : String) : AtsResult :=
  let cs := resume_text.data
  let text_lower := toLowerStr resume_text
  let contact_score :=
    (if hasEmail cs then 10 else 0) + (if hasPhone cs then 10 else 0)
  let section_score :=
    5 * common_sections.countP (fun alts => alts.any (fun a => containsSub a text_lower))
  let date_count :=
    countMatches yearAt cs + countMatches monthYearAt cs + countMatches mmddyyyyAt cs
  let date_score := min 15 (date_count * 3)
  let verb_count := action_verbs.countP (fun v => containsSub v text_lower)
  let verb_score := min 20 (verb_count * 2)
  let achievement_count := countMatches achievementAt cs
  let achievement_score := min 15 (achievement_count * 3)
  let word_count := (splitWords resume_text).length
  let length_score :=
    if 300 ≤ word_count ∧ word_count ≤ 1500 then 10
    else if (200 ≤ word_count ∧ word_count < 300) ∨
            (1500 < word_count ∧ word_count ≤ 2000) then 5
    else 2
  let score := contact_score + section_score + date_score + verb_score +
    achievement_score + length_score
  { total_score := min score 100
    max_score := 100
    breakdown :=
      { contact_info := contact_score
        section_headers := section_score
        dates := date_score
        action_verbs := verb_score
        quantifiable_achievements := achievement_score
        optimal_length := length_score }
    grade := get_grade score }

/-! ## Skill extractor (`extract_skills`, lines 106-148) -/

/-- The fixed technical-skill vocabulary. -/
def tech_skills_keywords : List String :=
  ["python", "java", "javascript", "typescript", "c++", "c#", "sql", "nosql",
   "react", "angular", "vue", "node.js", "django", "flask", "spring",
   "aws", "azure", "gcp", "docker", "kubernetes", "jenkins", "git",
   "machine learning", "ai", "deep learning", "tensorflow", "pytorch",
   "html", "css", "mongodb", "postgresql", "mysql", "redis",
   "rest api", "graphql", "microservices", "agile", "scrum"]

/-- The fixed soft-skill vocabulary. -/
def soft_skills_keywords : List String :=
  ["leadership", "communication", "teamwork", "problem solving",
   "analytical", "creative", "adaptable", "time management",
   "collaboration", "critical thinking", "decision making"]

/-- Whether a character list starts with a regex word character. -/
def headIsWord : List Char → Bool
  | [] => false
  | c :: _ => isWordChar c

/-- Greedy matching of the `(?:\s+[A-Z][a-z]+)*` tail of the
capitalized-word pattern at the head of `l`: each repetition is kept
only when its lowercase run ends at a non-word character or the end of
the input (otherwise neither a further repetition nor the final `\b`
can succeed, and backtracking inside the runs cannot help).  Returns
the matched characters and the rest of the input. -/
def capTail : Nat → List Char → (List Char × List Char)
  | 0, l => ([], l)
  | fuel + 1, l =>
    let ws := l.takeWhile Char.isWhitespace
    let r1 := l.dropWhile Char.isWhitespace
    if ws.isEmpty then ([], l)
    else
      match r1 with
      | [] => ([], l)
      | c :: r2 =>
        if c.isUpper then
          let low := r2.takeWhile Char.isLower
          let r3 := r2.dropWhile Char.isLower
          if low.isEmpty then ([], l)
          else if headIsWord r3 then ([], l)
          else
            let p := capTail fuel r3
            (ws ++ c :: low ++ p.1, p.2)
        else ([], l)

/-- Match of `[A-Z][a-z]+(?:\s+[A-Z][a-z]+)*\b` at the head of `l` (the
leading `\b` is the caller's responsibility): an uppercase letter, a
non-empty maximal lowercase run ending at a non-word position, then the
greedy tail. -/
def capHead : List Char → Option (List Char × List Char)
  | [] => none
  | c :: r1 =>
    if c.isUpper then
      let low := r1.takeWhile Char.isLower
      let r2 := r1.dropWhile Char.isLower
      if low.isEmpty then none
      else if headIsWord r2 then none
      else
        let p := capTail r2.length r2
        some (c :: low ++ p.1, p.2)
    else none

/-- Left-to-right non-overlapping `re.findall` scan of the
capitalized-word pattern.  `prevWord` records whether the character
before the current position is a word character: since every match
starts with an uppercase (word) character, the leading `\b` holds
exactly when `prevWord` is false; and since every match ends with a
lowercase letter, scanning resumes after a match with `prevWord`
true. -/
def scanCapWords : Nat → Bool → List Char → List String
  | 0, _, _ => []
  | _ + 1, _, [] => []
  | fuel + 1, prevWord, c :: r =>
    if prevWord then scanCapWords fuel (isWordChar c) r
    else
      match capHead (c :: r) with
      | some (m, rest) => String.mk m :: scanCapWords fuel true rest
      | none => scanCapWords fuel (isWordChar c) r

/-- `re.findall(r'\b[A-Z][a-z]+(?:\s+[A-Z][a-z]+)*\b', s)`. -/
def aiSkills (s : String) : List String :=
  scanCapWords (s.data.length + 1) false s.data

/-- The dictionary returned by `extract_skills`.  Python builds the
`technical` and `soft` fields with `list(set(...))`, whose order is an
artifact of hashing; they are embedded as `dedup` lists
(first-occurrence order), and every property proved about them depends
only on membership and cardinality. -/
structure SkillsResult where
  technical : List String
  soft : List String
  total_count : Nat
deriving Repr, DecidableEq

/-- Embedding of `extract_skills(resume_text, from_ai=None)`.  The
Python truthiness test `if from_ai:` is false for both `None` and the
empty string. -/
def extract_skills (resume_text : String) (from_ai : Option String) : SkillsResult :=
  let text_lower := toLowerStr resume_text
  let technical_skills :=
    tech_skills_keywords.filter (fun s => containsSub (toLowerStr s) text_lower)
  let soft_skills :=
    soft_skills_keywords.filter (fun s => containsSub (toLowerStr s) text_lower)
  let technical_skills :=
    match from_ai with
    | some ai =>
      if ai.data.isEmpty then technical_skills
      else
        technical_skills ++
          (aiSkills ai).filter
            (fun s => !((technical_skills.map toLowerStr).contains (toLowerStr s)))
    | none => technical_skills
  { technical := technical_skills.dedup
    soft := soft_skills.dedup
    total_count := technical_skills.dedup.length + soft_skills.dedup.length }

/-! ## Salary estimator (`estimate_salary_range`, lines 197-243) -/

/-- The dictionary returned by `estimate_salary_range`. -/
structure SalaryBand where
  min : String
  max : String
  avg : String
  currency : String
deriving Repr, DecidableEq

/-- The salary table, in the insertion order of the Python dictionary
(which is also its iteration order): key, min, max, avg. -/
def salary_ranges : List (String × String × String × String) :=
  [("intern", "1.5", "3", "2.5"),
   ("junior", "3", "6", "4.5"),
   ("software engineer", "4", "12", "7"),
   ("senior", "12", "25", "18"),
   ("lead", "20", "40", "28"),
   ("manager", "25", "50", "35"),
   ("architect", "30", "60", "42"),
   ("director", "40", "80", "55"),
   ("data scientist", "6", "20", "12"),
   ("devops", "5", "18", "10"),
   ("full stack", "5", "15", "9"),
   ("frontend", "4", "12", "7"),
   ("backend", "5", "14", "8.5")]

/-- The default band returned when no table key matches. -/
def defaultBand : SalaryBand :=
  { min := "4 LPA", max := "12 LPA", avg := "7 LPA", currency := "INR" }

/-- Rendering of a matched table entry into the returned band. -/
def bandOfEntry (e : String × String × String × String) : SalaryBand :=
  { min := e.2.1 ++ " LPA", max := e.2.2.1 ++ " LPA",
    avg := e.2.2.2 ++ " LPA", currency := "INR" }

/-- Embedding of `estimate_salary_range(job_title, location="India")`.
The `location` parameter is accepted and, as in the source, never
read. -/
def estimate_salary_range (job_title : String) (location : String) : SalaryBand :=
  let title_lower := toLowerStr job_title
  match salary_ranges.find? (fun e => containsSub e.1 title_lower) with
  | some e => bandOfEntry e
  | none => defaultBand

/-! ## Interview tip generator (`generate_interview_tips`, lines 246-309)

The tip strings below reproduce the source file's literals exactly; the
file stores its emoji as mangled (double-encoded) sequences, written
here with unicode escapes. -/

/-- Universal tip 1. -/
def tip_star : String :=
  "ğŸ“š Review STAR method (Situation, Task, Action, Result) for behavioral questions"

/-- Universal tip 2. -/
def tip_examples : String :=
  "ğŸ’¡ Prepare examples of your past projects and achievements"

/-- Universal tip 3. -/
def tip_concepts : String :=
  "ğŸ¤” Practice explaining complex technical concepts in simple terms"

/-- Data/ML/AI bundle. -/
def tips_data : List String :=
  ["ğŸ“Š Be ready to discuss your data analysis projects and methodologies",
   "ğŸ§® Brush up on statistics, probability, and machine learning algorithms",
   "ğŸ’» Practice SQL queries and data manipulation problems"]

/-- Frontend/React/UI bundle. -/
def tips_frontend : List String :=
  ["ğŸ¨ Prepare your portfolio of UI/UX projects",
   "âš›ï¸ Review React/Vue/Angular lifecycle and hooks",
   "ğŸ“± Discuss responsive design and browser compatibility"]

/-- Backend tip on API design. -/
def tip_backend_api : String := "ğŸ”§ Review RESTful API design principles"

/-- Backend tip on databases. -/
def tip_backend_db : String := "ğŸ—„ï¸ Discuss database design and optimization"

/-- Backend tip on security. -/
def tip_backend_auth : String :=
  "ğŸ” Understand authentication, authorization, and security best practices"

/-- Backend/API bundle. -/
def tips_backend : List String := [tip_backend_api, tip_backend_db, tip_backend_auth]

/-- DevOps/SRE bundle. -/
def tips_devops : List String :=
  ["â˜ï¸ Review CI/CD pipeline concepts",
   "ğŸ³ Discuss containerization and orchestration (Docker, Kubernetes)",
   "ğŸ“Š Understand monitoring, logging, and alerting strategies"]

/-- Full-stack bundle. -/
def tips_fullstack : List String :=
  ["ğŸŒ Be prepared for both frontend and backend questions",
   "ğŸ”„ Discuss your experience with complete project lifecycle",
   "ğŸ› ï¸ Review system design fundamentals"]

/-- Generic bundle used when no role keyword matches. -/
def tips_other : List String :=
  ["ğŸ” Research the company\x27s products and recent news",
   "ğŸ’¬ Prepare thoughtful questions to ask the interviewer",
   "ğŸ¯ Highlight projects relevant to the job description"]

/-- Python-specific tip. -/
def tip_python : String :=
  "ğŸ Review Python data structures and common libraries"

/-- Cloud-specific tip. -/
def tip_cloud : String :=
  "â˜ï¸ Discuss your cloud architecture experience and cost optimization"

/-- Embedding of `generate_interview_tips(job_title, skills)`: three
universal tips, one role bundle chosen by first-match-wins substring
tests on the lowercased title, optional skill-triggered tips, truncated
to the first 8. -/
def generate_interview_tips (job_title : String) (skills : List String) : List String :=
  let tips := [tip_star, tip_examples, tip_concepts]
  let title_lower := toLowerStr job_title
  let tips :=
    if containsSub "data" title_lower || containsSub "ml" title_lower ||
       containsSub "ai" title_lower then tips ++ tips_data
    else if containsSub "frontend" title_lower || containsSub "react" title_lower ||
            containsSub "ui" title_lower then tips ++ tips_frontend
    else if containsSub "backend" title_lower || containsSub "api" title_lower then
      tips ++ tips_backend
    else if containsSub "devops" title_lower || containsSub "sre" title_lower then
      tips ++ tips_devops
    else if containsSub "full stack" title_lower then tips ++ tips_fullstack
    else tips ++ tips_other
  let skills_lower := skills.map toLowerStr
  let tips := if skills_lower.contains "python" then tips ++ [tip_python] else tips
  let tips :=
    if ["aws", "azure", "gcp"].any (fun c => skills_lower.contains c) then
      tips ++ [tip_cloud]
    else tips
  tips.take 8

/-- Characters of a text consisting of `n` copies of the word "a", each
followed by a space: a resume text with an exact word count, used to
instantiate the optimal-length buckets. -/
def repWords : Nat → List Char
  | 0 => []
  | n + 1 => 'a' :: ' ' :: repWords n

/-- A resume text with exactly `n` whitespace-separated words. -/
def resumeOfWords (n : Nat) : String := String.mk (repWords n)

/-! ## Helper lemmas -/

/-- Joining the empty skill list gives the empty string. -/
theorem intercalate_space_nil : String.intercalate " " [] = "" := rfl

/-- Every word produced by `splitWordsAux` is non-empty. -/
theorem splitWordsAux_words_ne_nil :
    ∀ (cs acc : List Char), ∀ w ∈ splitWordsAux cs acc, w.data ≠ [] := by
  intro cs
  induction cs with
  | nil =>
    intro acc w hw
    simp only [splitWordsAux] at hw
    split at hw
    · simp at hw
    · rename_i h
      simp only [List.mem_singleton] at hw
      subst hw
      show acc.reverse ≠ []
      intro hc
      exact h (by simp [List.isEmpty_iff, List.reverse_eq_nil_iff.mp hc])
  | cons c cs ih =>
    intro acc w hw
    simp only [splitWordsAux] at hw
    split at hw
    · split at hw
      · exact ih [] w hw
      · rename_i h
        rcases List.mem_cons.mp hw with hw | hw
        · subst hw
          show acc.reverse ≠ []
          intro hc
          exact h (by simp [List.isEmpty_iff, List.reverse_eq_nil_iff.mp hc])
        · exact ih [] w hw
    · exact ih (c :: acc) w hw

/-- Every word of `splitWords` is non-empty. -/
theorem splitWords_words_ne_nil (s : String) :
    ∀ w ∈ splitWords s, w.data ≠ [] :=
  splitWordsAux_words_ne_nil s.data []

/-- A non-empty needle is not contained in the empty string. -/
theorem containsSub_empty_hay (w : String) (h : w.data ≠ []) :
    containsSub w "" = false := by
  unfold containsSub
  show List.any ([].tails) _ = false
  rcases hd : w.data with _ | ⟨c, cs⟩
  · exact absurd hd h
  · simp [List.tails, hd, isPrefixL]

/-- Rounding a non-negative rational to the nearest integer cannot
exceed an integer bound on the rational. -/
theorem rnEven_le (a b B : Nat) (hb : 0 < b) (h : a ≤ B * b) : rnEven a b ≤ B := by
  have hd := Nat.div_add_mod a b
  have hq : a / b ≤ B := by
    have h1 := Nat.div_le_div_right (c := b) h
    rwa [Nat.mul_div_cancel _ hb] at h1
  have key : b ≤ 2 * (a % b) → a / b < B := by
    intro h2r
    rcases Nat.lt_or_ge (a / b) B with hlt | hge
    · exact hlt
    · exfalso
      have h1 : b * B ≤ b * (a / b) := Nat.mul_le_mul_left b hge
      have h4 : B * b = b * B := Nat.mul_comm B b
      omega
  simp only [rnEven]
  split
  · exact hq
  · split
    · have := key (by omega)
      omega
    · split
      · exact hq
      · have := key (by omega)
        omega

/-- The fuelled base-2 logarithm is bounded by any exponent dominating
its argument. -/
theorem flog2Aux_le (fuel : Nat) : ∀ x k : Nat, x ≤ 2 ^ k → flog2Aux fuel x ≤ k := by
  induction fuel with
  | zero => intro x k _; simp [flog2Aux]
  | succ f ih =>
    intro x k hx
    unfold flog2Aux
    split
    · rename_i h2
      have hk : 1 ≤ k := by
        by_contra hk0
        push_neg at hk0
        have : k = 0 := by omega
        subst this
        simp at hx
        omega
      have hpow : 2 ^ k / 2 = 2 ^ (k - 1) := by
        rcases Nat.exists_eq_add_of_le hk with ⟨j, hj⟩
        subst hj
        rw [Nat.add_comm 1 j, Nat.pow_succ, Nat.mul_div_cancel _ (by omega)]
        simp
      have hx2 : x / 2 ≤ 2 ^ (k - 1) := by
        have h1 := Nat.div_le_div_right (c := 2) hx
        rwa [hpow] at h1
      have := ih (x / 2) (k - 1) hx2
      omega
    · omega

/-- Bound on the floor base-2 logarithm of a rational. -/
theorem qlog2_le (a b k : Nat) (hb : 0 < b) (h : a ≤ 2 ^ k * b) :
    qlog2 a b ≤ (k : Int) := by
  unfold qlog2 flog2
  have hX : a * 2 ^ (flog2Aux b b + 2) / b ≤ 2 ^ (flog2Aux b b + 2 + k) := by
    have h1 : a * 2 ^ (flog2Aux b b + 2) ≤ 2 ^ k * b * 2 ^ (flog2Aux b b + 2) :=
      Nat.mul_le_mul_right _ h
    have h2 : a * 2 ^ (flog2Aux b b + 2) / b ≤
        2 ^ k * b * 2 ^ (flog2Aux b b + 2) / b := Nat.div_le_div_right h1
    have h3 : 2 ^ k * b * 2 ^ (flog2Aux b b + 2) / b =
        2 ^ (flog2Aux b b + 2 + k) := by
      rw [Nat.mul_right_comm, Nat.mul_div_cancel _ hb, ← Nat.pow_add, Nat.add_comm k _]
    rw [h3] at h2
    exact h2
  have h4 := flog2Aux_le (a * 2 ^ (flog2Aux b b + 2) / b)
    (a * 2 ^ (flog2Aux b b + 2) / b) (flog2Aux b b + 2 + k) hX
  omega

/-- Rounding to binary64 stays under a representable integer bound, and
small inputs land in the non-positive-exponent branch. -/
theorem roundB64_le (a b B k : Nat) (hb : 0 < b) (hk : k ≤ 52) (hB : B ≤ 2 ^ k)
    (h : a ≤ B * b) :
    (roundB64 a b).2 ≤ 0 ∧ (roundB64 a b).1 ≤ B * 2 ^ (-(roundB64 a b).2).toNat := by
  have hq : qlog2 a b ≤ (k : Int) :=
    qlog2_le a b k hb (le_trans h (Nat.mul_le_mul_right b hB))
  have hs : max (qlog2 a b) (-1022) - 52 ≤ 0 := by
    have h1 : max (qlog2 a b) (-1022) ≤ (k : Int) := by
      apply max_le hq
      omega
    omega
  simp only [roundB64]
  rw [if_pos hs]
  refine ⟨hs, ?_⟩
  exact rnEven_le _ _ _ hb (by
    calc a * 2 ^ (-(max (qlog2 a b) (-1022) - 52)).toNat ≤
        B * b * 2 ^ (-(max (qlog2 a b) (-1022) - 52)).toNat :=
          Nat.mul_le_mul_right _ h
      _ = B * 2 ^ (-(max (qlog2 a b) (-1022) - 52)).toNat * b := Nat.mul_right_comm _ _ _)

/-- The truncated float base score never exceeds 100 when at most all
skills match. -/
theorem pyBase_le (m n : Nat) (hn : 0 < n) (h : m ≤ n) : pyBase m n ≤ 100 := by
  obtain ⟨h1e, h1m⟩ := roundB64_le m n 1 0 hn (by omega) (by omega) (by omega)
  simp only [pyBase]
  rw [if_pos h1e]
  have h1m' : 100 * (roundB64 m n).1 ≤ 100 * 2 ^ (-(roundB64 m n).2).toNat := by
    have := Nat.mul_le_mul_left 100 h1m
    omega
  obtain ⟨h2e, h2m⟩ :=
    roundB64_le (100 * (roundB64 m n).1) (2 ^ (-(roundB64 m n).2).toNat) 100 7
      (Nat.pos_pow_of_pos _ (by omega)) (by omega) (by omega) h1m'
  split
  · rename_i hpos
    have hz : (roundB64 (100 * (roundB64 m n).1) (2 ^ (-(roundB64 m n).2).toNat)).2 = 0 :=
      le_antisymm h2e hpos
    rw [hz] at h2m ⊢
    simpa using h2m
  · calc (roundB64 (100 * (roundB64 m n).1) (2 ^ (-(roundB64 m n).2).toNat)).1 /
        2 ^ (-(roundB64 (100 * (roundB64 m n).1)
          (2 ^ (-(roundB64 m n).2).toNat)).2).toNat ≤
        100 * 2 ^ (-(roundB64 (100 * (roundB64 m n).1)
          (2 ^ (-(roundB64 m n).2).toNat)).2).toNat /
        2 ^ (-(roundB64 (100 * (roundB64 m n).1)
          (2 ^ (-(roundB64 m n).2).toNat)).2).toNat := Nat.div_le_div_right h2m
      _ = 100 := Nat.mul_div_cancel _ (Nat.pos_pow_of_pos _ (by omega))

/-- Collapsing the two nested clamps of the job-match formula: the base
score never exceeds 100, so the inner `min` is redundant. -/
theorem minClamp (x t : Nat) (hx : x ≤ 100) :
    min 100 (min 100 x + t * 5) = min 100 (x + 5 * t) := by
  rw [Nat.min_eq_right hx, Nat.mul_comm t 5]

/-! ## Claims about the job match scorer -/

/-- C1 (counterexample): the claimed formula rounds the base score
(`round(100 × matches / |resumeSkills|)`), but the code truncates
(`int(...)`).  With skills `["aa","bb","cc"]` and title `"xaaxbbx"`,
two of three skills match and no title word matches: the code returns
66 (the doubles computed from 2/3 truncate to 66), while the claimed
formula gives `round(200/3) = 67`. -/
theorem C1_job_match_formula_cex :
    calculate_job_match_score ["aa", "bb", "cc"] "xaaxbbx" "" = 66 ∧
    specJobMatchScore ["aa", "bb", "cc"] "xaaxbbx" "" = 67 ∧
    calculate_job_match_score ["aa", "bb", "cc"] "xaaxbbx" "" ≠
      specJobMatchScore ["aa", "bb", "cc"] "xaaxbbx" "" := by
  refine ⟨by decide, by decide, by decide⟩

/-- C1 (amended): for every skill list, job title and job description,
`calculate_job_match_score` returns `min(100, base + 5 × titleMatches)`
with `base = int((matches / |resumeSkills|) * 100)` evaluated in
IEEE-754 binary64 arithmetic — truncation of the twice-rounded product,
not `round` and not the exact floor — for a non-empty skill list, and 0
for the empty skill list, with `matches` and `titleMatches` counted as
the claim states them.  The float evaluation matters: at 29 matches of
100 skills the base is 28 while the exact floor is 29, making the
full score 33 rather than 34 on such an input. -/
theorem C1_job_match_formula :
    (∀ (skills : List String) (title desc : String),
      calculate_job_match_score skills title desc =
        specJobMatchScorePy skills title desc) ∧
    pyBase 29 100 = 28 ∧
    100 * 29 / 100 = 29 ∧
    calculate_job_match_score
      (List.replicate 29 "aa" ++ List.replicate 71 "zz") "aa" "" = 33 := by
  refine ⟨?_, by set_option maxRecDepth 4000 in decide, by decide,
    by set_option maxRecDepth 4000 in decide⟩
  intro skills title desc
  rcases skills with _ | ⟨s, ss⟩
  · simp only [calculate_job_match_score, specJobMatchScorePy, List.map_nil,
      List.length_nil, intercalate_space_nil, List.filter_nil]
    have hf : (splitWords (toLowerStr title)).filter (fun w => containsSub w "") = [] := by
      apply List.filter_eq_nil_iff.mpr
      intro w hw
      simp [containsSub_empty_hay w (splitWords_words_ne_nil _ w hw)]
    rw [hf]
    simp
  · simp only [calculate_job_match_score, specJobMatchScorePy]
    rw [if_pos (by simp), if_neg (by simp)]
    exact minClamp _ _ (pyBase_le _ _ (by simp)
      (le_trans (List.length_filter_le _ _) (le_of_eq (by rw [List.length_map]))))

/-- C2 (counterexample): `calculate_job_match_score(["python","django"],
"Python Developer")` does not return 100: "django" is not a substring
of "python developer ", so only one of the two skills matches. -/
theorem C2_python_developer_cex :
    calculate_job_match_score ["python", "django"] "Python Developer" "" ≠ 100 := by
  decide

/-- C2 (amended): `calculate_job_match_score(["python","django"],
"Python Developer")` with the default empty description returns 55
(base `int(100 × 1/2) = 50`, one matching title word adding 5). -/
theorem C2_python_developer :
    calculate_job_match_score ["python", "django"] "Python Developer" "" = 55 := by
  decide

/-! ## Claims about the ATS scorer -/

/-- The two contact-info bonuses add up to at most 20. -/
theorem contact_pair_le (a b : Bool) :
    ((if a then 10 else 0) + (if b then 10 else 0) : Nat) ≤ 20 := by
  cases a <;> cases b <;> decide

/-- The optimal-length bucket value is at most 10. -/
theorem length_bucket_le (w : Nat) :
    (if 300 ≤ w ∧ w ≤ 1500 then (10 : Nat)
     else if (200 ≤ w ∧ w < 300) ∨ (1500 < w ∧ w ≤ 2000) then 5 else 2) ≤ 10 := by
  split
  · decide
  · split <;> decide

/-- At most 4 of the 4 section-header families can match. -/
theorem sections_count_le (p : List String → Bool) :
    common_sections.countP p ≤ 4 :=
  le_trans (List.countP_le_length p) (le_of_eq (rfl : common_sections.length = 4))

/-- The pre-clamp ATS sum is bounded by 100, each summand being within
its cap. -/
theorem ats_sum_le (a b : Bool) (n4 d v ac L : Nat) (h4 : n4 ≤ 4) (hL : L ≤ 10) :
    ((if a then 10 else 0) + (if b then 10 else 0)) + 5 * n4 + min 15 d +
      min 20 v + min 15 ac + L ≤ 100 := by
  have h1 := contact_pair_le a b
  have h2 := Nat.min_le_left 15 d
  have h3 := Nat.min_le_left 20 v
  have h5 := Nat.min_le_left 15 ac
  omega

/-- C5 (confirmed): for every resume text the total ATS score lies in
[0, 100] and every breakdown component is within its documented cap
(contact 20, sections 20, dates 15, verbs 20, achievements 15,
length 10). -/
theorem C5_ats_score_bounds (t : String) :
    0 ≤ (calculate_ats_score t).total_score ∧
    (calculate_ats_score t).total_score ≤ 100 ∧
    (calculate_ats_score t).breakdown.contact_info ≤ 20 ∧
    (calculate_ats_score t).breakdown.section_headers ≤ 20 ∧
    (calculate_ats_score t).breakdown.dates ≤ 15 ∧
    (calculate_ats_score t).breakdown.action_verbs ≤ 20 ∧
    (calculate_ats_score t).breakdown.quantifiable_achievements ≤ 15 ∧
    (calculate_ats_score t).breakdown.optimal_length ≤ 10 := by
  simp only [calculate_ats_score]
  refine ⟨Nat.zero_le _, Nat.min_le_right _ _, contact_pair_le _ _, ?_,
    Nat.min_le_left _ _, Nat.min_le_left _ _, Nat.min_le_left _ _, length_bucket_le _⟩
  calc 5 * List.countP _ common_sections ≤ 5 * 4 :=
      Nat.mul_le_mul_left 5 (sections_count_le _)
    _ = 20 := by decide

/-- C6 (confirmed): the grade is the step function of the pre-clamp
sum, which never exceeds 100, so the final clamp is a no-op: the total
equals the sum of the six breakdown components and the grade is
`get_grade` of that total. -/
theorem C6_grade_from_preclamp_sum (t : String) :
    (calculate_ats_score t).total_score =
      (calculate_ats_score t).breakdown.contact_info +
      (calculate_ats_score t).breakdown.section_headers +
      (calculate_ats_score t).breakdown.dates +
      (calculate_ats_score t).breakdown.action_verbs +
      (calculate_ats_score t).breakdown.quantifiable_achievements +
      (calculate_ats_score t).breakdown.optimal_length ∧
    (calculate_ats_score t).total_score ≤ 100 ∧
    (calculate_ats_score t).grade = get_grade ((calculate_ats_score t).total_score) := by
  simp only [calculate_ats_score]
  refine ⟨?_, Nat.min_le_right _ _, ?_⟩
  · exact Nat.min_eq_left
      (ats_sum_le _ _ _ _ _ _ _ (sections_count_le _) (length_bucket_le _))
  · rw [Nat.min_eq_left
      (ats_sum_le _ _ _ _ _ _ _ (sections_count_le _) (length_bucket_le _))]

/-- The optimal-length component is the word-count bucket function. -/
theorem ats_optimal_length_eq (t : String) :
    (calculate_ats_score t).breakdown.optimal_length =
      (if 300 ≤ (splitWords t).length ∧ (splitWords t).length ≤ 1500 then 10
       else if (200 ≤ (splitWords t).length ∧ (splitWords t).length < 300) ∨
               (1500 < (splitWords t).length ∧ (splitWords t).length ≤ 2000) then 5
       else 2) := rfl

/-- `resumeOfWords n` has exactly `n` words. -/
theorem wordCount_repWords : ∀ n : Nat, (splitWords (resumeOfWords n)).length = n := by
  intro n
  induction n with
  | zero => rfl
  | succ n ih =>
    have h : splitWords (resumeOfWords (n + 1)) =
        String.mk ['a'] :: splitWords (resumeOfWords n) := rfl
    rw [h, List.length_cons, ih]

/-- C7 (confirmed): the optimal-length component is exactly the claimed
bucket function of the whitespace word count, and in particular texts
of 300 and 1500 words score 10, of 299 and 1501 words score 5, and of
100 and 2500 words score 2. -/
theorem C7_optimal_length_buckets :
    (∀ t : String,
      (calculate_ats_score t).breakdown.optimal_length =
        (if 300 ≤ (splitWords t).length ∧ (splitWords t).length ≤ 1500 then 10
         else if (200 ≤ (splitWords t).length ∧ (splitWords t).length < 300) ∨
                 (1500 < (splitWords t).length ∧ (splitWords t).length ≤ 2000) then 5
         else 2)) ∧
    (calculate_ats_score (resumeOfWords 300)).breakdown.optimal_length = 10 ∧
    (calculate_ats_score (resumeOfWords 1500)).breakdown.optimal_length = 10 ∧
    (calculate_ats_score (resumeOfWords 299)).breakdown.optimal_length = 5 ∧
    (calculate_ats_score (resumeOfWords 1501)).breakdown.optimal_length = 5 ∧
    (calculate_ats_score (resumeOfWords 100)).breakdown.optimal_length = 2 ∧
    (calculate_ats_score (resumeOfWords 2500)).breakdown.optimal_length = 2 := by
  refine ⟨fun t => ats_optimal_length_eq t, ?_, ?_, ?_, ?_, ?_, ?_⟩ <;>
    rw [ats_optimal_length_eq, wordCount_repWords] <;> norm_num

/-! ## Claims about the salary estimator, tip generator and totality -/

/-- C4 (confirmed): `estimate_salary_range` is total — every result is
a rendered table band or the default 4-12 LPA band — and on "Senior
Software Engineer" the first matching table entry in insertion order is
`software engineer` (both it and `senior` are substrings of the
lowercased title, and the returned band is the software-engineer one,
not the senior one). -/
theorem C4_salary_first_match :
    (∀ t l : String,
      estimate_salary_range t l ∈ salary_ranges.map bandOfEntry ++ [defaultBand]) ∧
    containsSub "software engineer" (toLowerStr "Senior Software Engineer") = true ∧
    containsSub "senior" (toLowerStr "Senior Software Engineer") = true ∧
    estimate_salary_range "Senior Software Engineer" "India" =
      { min := "4 LPA", max := "12 LPA", avg := "7 LPA", currency := "INR" } ∧
    estimate_salary_range "Senior Software Engineer" "India" ≠
      { min := "12 LPA", max := "25 LPA", avg := "18 LPA", currency := "INR" } := by
  refine ⟨?_, by decide, by decide, by decide, by decide⟩
  intro t l
  simp only [estimate_salary_range]
  split
  · rename_i e heq
    exact List.mem_append_left _ (List.mem_map_of_mem _ (List.mem_of_find?_eq_some heq))
  · exact List.mem_append_right _ (by simp)

/-- The tip generator truncates its accumulated list to 8 entries. -/
theorem tips_len_le (t : String) (sk : List String) :
    (generate_interview_tips t sk).length ≤ 8 := by
  simp only [generate_interview_tips]
  simp [List.length_take]

/-- C8 (confirmed): every tip list has at most 8 entries, and on
("Backend API Engineer", ["python"]) the result contains the three
backend-specific tips and the Python-specific tip. -/
theorem C8_interview_tips :
    (∀ (t : String) (sk : List String), (generate_interview_tips t sk).length ≤ 8) ∧
    tip_backend_api ∈ generate_interview_tips "Backend API Engineer" ["python"] ∧
    tip_backend_db ∈ generate_interview_tips "Backend API Engineer" ["python"] ∧
    tip_backend_auth ∈ generate_interview_tips "Backend API Engineer" ["python"] ∧
    tip_python ∈ generate_interview_tips "Backend API Engineer" ["python"] := by
  refine ⟨tips_len_le, by decide, by decide, by decide, by decide⟩

/-- `get_grade` always yields one of the six letter grades. -/
theorem get_grade_mem (s : Nat) : get_grade s ∈ ["A+", "A", "B+", "B", "C", "D"] := by
  unfold get_grade
  split
  · simp
  split
  · simp
  split
  · simp
  split
  · simp
  split <;> simp

/-- The job-match score on an empty skill list is 0: the base score
guard takes its else-branch and no title word can be a substring of the
empty joined skill list. -/
theorem jobMatch_nil (t d : String) : calculate_job_match_score [] t d = 0 := by
  simp only [calculate_job_match_score, List.map_nil, List.length_nil,
    intercalate_space_nil, List.filter_nil]
  have hf : (splitWords (toLowerStr t)).filter (fun w => containsSub w "") = [] := by
    apply List.filter_eq_nil_iff.mpr
    intro w hw
    simp [containsSub_empty_hay w (splitWords_words_ne_nil _ w hw)]
  rw [hf]
  simp

/-- C9 (confirmed): the five core functions are total on all inputs and
always return well-formed results: the ATS result carries max 100, a
clamped total and one of the six grades; the skill extraction count is
the sum of the sizes of the two returned sets; the match score is
clamped to 100 and the empty skill list yields 0 (the division guard);
every salary band carries currency INR; and tip lists never exceed 8
entries. -/
theorem C9_totality :
    (∀ t : String,
      (calculate_ats_score t).max_score = 100 ∧
      (calculate_ats_score t).total_score ≤ 100 ∧
      (calculate_ats_score t).grade ∈ ["A+", "A", "B+", "B", "C", "D"]) ∧
    (∀ (rt : String) (ai : Option String),
      (extract_skills rt ai).total_count =
        (extract_skills rt ai).technical.length + (extract_skills rt ai).soft.length) ∧
    (∀ (sk : List String) (t d : String), calculate_job_match_score sk t d ≤ 100) ∧
    (∀ t d : String, calculate_job_match_score [] t d = 0) ∧
    (∀ t l : String, (estimate_salary_range t l).currency = "INR") ∧
    (∀ (t : String) (sk : List String), (generate_interview_tips t sk).length ≤ 8) := by
  refine ⟨?_, fun rt ai => rfl, ?_, jobMatch_nil, ?_, tips_len_le⟩
  · intro t
    refine ⟨rfl, ?_, ?_⟩
    · simp only [calculate_ats_score]
      exact Nat.min_le_right _ _
    · exact get_grade_mem _
  · intro sk t d
    simp only [calculate_job_match_score]
    exact Nat.min_le_left _ _
  · intro t l
    cases hf : List.find? (fun e => containsSub e.1 (toLowerStr t)) salary_ranges <;>
      simp [estimate_salary_range, hf, bandOfEntry, defaultBand]

/-- C10 (confirmed): the location argument of `estimate_salary_range`
has no effect on the result: the source reads only the job title. -/
theorem C10_location_noninterference (t l1 l2 : String) :
    estimate_salary_range t l1 = estimate_salary_range t l2 := rfl

/-! ## Claims about the skill extractor -/

/-- The 49 vocabulary keywords are pairwise distinct even after case
folding. -/
theorem keywords_pairwise_lower_ne :
    List.Pairwise (fun a b => toLowerStr a ≠ toLowerStr b)
      (tech_skills_keywords ++ soft_skills_keywords) := by decide

/-- Counting case-folded images of a list whose elements are pairwise
distinct after case folding gives the plain lengths. -/
theorem dedup_append_lower_count (T S : List String)
    (hpair : List.Pairwise (fun a b => toLowerStr a ≠ toLowerStr b) (T ++ S)) :
    ((T ++ S).map toLowerStr).dedup.length = T.length + S.length := by
  have hnodup : ((T ++ S).map toLowerStr).Nodup := List.pairwise_map.mpr hpair
  rw [List.dedup_eq_self.mpr hnodup, List.length_map, List.length_append]

/-- C3 (counterexample): with resume text "leadership" and AI text
"Leadership", the soft set is `["leadership"]` and the technical set is
`["Leadership"]` (the AI filter compares only against the technical
set), so `total_count = 2`, while the number of case-insensitively
distinct skills across both sets is 1: duplicates across the two sets
are not collapsed. -/
theorem C3_total_count_cex :
    (extract_skills "leadership" (some "Leadership")).total_count = 2 ∧
    ((((extract_skills "leadership" (some "Leadership")).technical ++
       (extract_skills "leadership" (some "Leadership")).soft).map
        toLowerStr).dedup).length = 1 ∧
    (extract_skills "leadership" (some "Leadership")).total_count ≠
      ((((extract_skills "leadership" (some "Leadership")).technical ++
         (extract_skills "leadership" (some "Leadership")).soft).map
          toLowerStr).dedup).length := by
  refine ⟨by decide, by decide, by decide⟩

/-- C3 (amended): when no AI text is supplied, `total_count` does equal
the number of case-insensitively distinct skills across the technical
and soft sets combined (both sets then come from the fixed vocabularies,
which are case-insensitively disjoint); an AI-extracted skill differing
only in case from a soft skill is counted twice. -/
theorem C3_total_count_no_ai (rt : String) :
    (extract_skills rt none).total_count =
      (((extract_skills rt none).technical ++ (extract_skills rt none).soft).map
        toLowerStr).dedup.length := by
  simp only [extract_skills]
  rw [dedup_append_lower_count]
  refine List.Pairwise.sublist ?_ keywords_pairwise_lower_ne
  exact List.Sublist.append ((List.dedup_sublist _).trans (List.filter_sublist _))
    ((List.dedup_sublist _).trans (List.filter_sublist _))
